import Mathlib

/-!
# EarthquakeVisualizerApp: the visual encoder, the marker projection and the fetch state machine

A shallow embedding of `src/components/MapComponent.jsx` and
`src/context/AppContext.jsx`.

Modelling conventions.

* A JavaScript number that is finite is the rational it denotes (`ℚ`); every
  finite double is one, and comparisons are exact on them.  The one arithmetic
  operation of the program, `mag * 3`, is the exact product rounded to the
  nearest binary64 value, ties to even, with overflow to an infinity
  (`roundBinary64`).  The two zeros are not told apart.
* A value delivered by `res.json()` is a `JSVal`; `JSVal.undefined` is what a
  read of a missing property yields.
* A JavaScript exception is `Except.error` with the kind of the error.
-/

namespace EarthquakeVisualizer

/-! ## Values -/

/-- JavaScript values that a parsed feed is made of, plus `undefined`. -/
inductive JSVal where
  | undefined : JSVal
  | null : JSVal
  | bool (b : Bool) : JSVal
  | num (q : ℚ) : JSVal
  | str (s : String) : JSVal
  | arr (xs : List JSVal) : JSVal
  | obj (kvs : List (String × JSVal)) : JSVal

namespace JSVal

instance : Inhabited JSVal := ⟨JSVal.undefined⟩

/-- ToBoolean: the falsy values are `undefined`, `null`, `false`, `0` and the
empty string. -/
def truthy : JSVal → Bool
  | undefined => false
  | null => false
  | bool b => b
  | num q => decide (q ≠ 0)
  | str s => decide (s ≠ "")
  | arr _ => true
  | obj _ => true

/-- The test `v === undefined`. -/
def isUndefined : JSVal → Bool
  | undefined => true
  | _ => false

/-- The test `v === null`. -/
def isNull : JSVal → Bool
  | null => true
  | _ => false

/-- The test `v === q` against a number literal (strict equality: no coercion). -/
def strictEqNum : JSVal → ℚ → Bool
  | num p, q => decide (p = q)
  | _, _ => false

/-- The read `v.k` of a property named `k`, for the plain names the program
reads (none of them an index, `length` or a method of a built-in prototype):
a TypeError on `undefined` and `null`, the bound value on an object that has
the key, `undefined` everywhere else. -/
def getProp (v : JSVal) (k : String) : Except String JSVal :=
  match v with
  | undefined => Except.error "TypeError"
  | null => Except.error "TypeError"
  | obj kvs => Except.ok ((kvs.lookup k).getD undefined)
  | _ => Except.ok undefined

end JSVal

mutual
/-- Whether the conversion of a parsed value to a primitive (ToPrimitive, as
in `Number(v)`, `isNaN(v)` and `new Date(v)`) throws a TypeError.  No value
of a parsed feed is callable, so an object with an own key `toString` has no
usable conversion method: its own `toString` is skipped, and `valueOf` is
either an own value, skipped too, or the inherited one, which returns the
object itself.  An array converts by joining the strings of its elements. -/
def toPrimitiveThrows : JSVal → Bool
  | JSVal.obj kvs => (kvs.lookup "toString").isSome
  | JSVal.arr xs => anyToPrimitiveThrows xs
  | _ => false
/-- Whether the conversion of one of the elements throws. -/
def anyToPrimitiveThrows : List JSVal → Bool
  | [] => false
  | x :: xs => toPrimitiveThrows x || anyToPrimitiveThrows xs
end

/-! ## VisualEncoder (`getColor`, `getRadius`) -/

/-- The colour table of `getColor`. -/
def colors : List String :=
  ["#0033cc", "#0066ff", "#009900", "#ffff00", "#ff9900", "#ff0000", "#990000"]

/-- The function `getColor` of `MapComponent.jsx`: the thresholds are tested
from the highest downward and the first match returns. -/
def getColor (mag : ℚ) : String :=
  if mag ≥ 7.0 then colors[6]!
  else if mag ≥ 6.0 then colors[5]!
  else if mag ≥ 5.0 then colors[4]!
  else if mag ≥ 4.0 then colors[3]!
  else if mag ≥ 3.0 then colors[2]!
  else if mag ≥ 2.0 then colors[1]!
  else colors[0]!

/-- A binary64 value that is not NaN: a finite one, as the rational it
denotes, or an infinity. -/
inductive Binary64 where
  | finite (q : ℚ) : Binary64
  | posInf : Binary64
  | negInf : Binary64

/-- Rounding to the nearest integer, a tie going to the even one. -/
def roundHalfEven (x : ℚ) : ℤ :=
  if x - ⌊x⌋ < 1 / 2 then ⌊x⌋
  else if 1 / 2 < x - ⌊x⌋ then ⌊x⌋ + 1
  else if ⌊x⌋ % 2 = 0 then ⌊x⌋ else ⌊x⌋ + 1

/-- The binary exponent of the spacing of the binary64 values around `x`: 52
below the exponent of `x` (53 significant bits), and `-1074` in the subnormal
range. -/
def ulpExponent (x : ℚ) : ℤ := max (Int.log 2 |x| - 52) (-1074)

/-- The binary64 result of an operation whose exact result is `x`: the
nearest multiple of the spacing, a tie going to the even significand, and an
infinity when that is `2 ^ 1024` or more. -/
def roundBinary64 (x : ℚ) : Binary64 :=
  if (2 : ℚ) ^ (1024 : ℤ) ≤ (roundHalfEven (|x| / 2 ^ ulpExponent x) : ℚ) * 2 ^ ulpExponent x then
    if 0 < x then Binary64.posInf else Binary64.negInf
  else if 0 ≤ x then
    Binary64.finite ((roundHalfEven (|x| / 2 ^ ulpExponent x) : ℚ) * 2 ^ ulpExponent x)
  else
    Binary64.finite (-((roundHalfEven (|x| / 2 ^ ulpExponent x) : ℚ) * 2 ^ ulpExponent x))

/-- The function `getRadius` of `MapComponent.jsx`: `Math.max(mag * 3, 6)`,
the product being a binary64 multiplication. -/
def getRadius (mag : ℚ) : Binary64 :=
  match roundBinary64 (mag * 3) with
  | Binary64.finite p => Binary64.finite (max p 6)
  | Binary64.posInf => Binary64.posInf
  | Binary64.negInf => Binary64.finite 6

/-! ## MapView: the marker projection of `MapComponent` -/

/-- The global `isNaN(v)`: `v` is coerced to a number first, which throws a
TypeError when `v` has no conversion to a primitive.  Otherwise `undefined`
and an object coerce to NaN; `null`, a boolean and a number do not.  A string
and an array go through the string-to-number grammar of the runtime, which is
the parameter `coerceNaN`. -/
def isNaN (coerceNaN : JSVal → Bool) (v : JSVal) : Except String Bool :=
  if toPrimitiveThrows v then Except.error "TypeError"
  else
    match v with
    | JSVal.undefined => Except.ok true
    | JSVal.null => Except.ok false
    | JSVal.bool _ => Except.ok false
    | JSVal.num _ => Except.ok false
    | JSVal.str s => Except.ok (coerceNaN (JSVal.str s))
    | JSVal.arr xs => Except.ok (coerceNaN (JSVal.arr xs))
    | JSVal.obj _ => Except.ok true

/-- The array destructuring `const [lng, lat] = c`: the first two elements the
iterator of `c` yields, `undefined` for one it does not yield; a TypeError
when `c` is not iterable.  A string iterates over its code points. -/
def destructurePair (c : JSVal) : Except String (JSVal × JSVal) :=
  match c with
  | JSVal.arr xs => Except.ok (xs.getD 0 JSVal.undefined, xs.getD 1 JSVal.undefined)
  | JSVal.str s =>
      let cs := s.data.map (fun ch => JSVal.str (String.singleton ch))
      Except.ok (cs.getD 0 JSVal.undefined, cs.getD 1 JSVal.undefined)
  | _ => Except.error "TypeError"

/-- What one `CircleMarker` element with its `Popup` is built from.  `time` is
the raw `properties.time` (the text `toLocaleString` makes of it depends on
the locale of the browser), `mag` the number `toFixed(1)` prints, `felt` the felt
count when the felt line is shown, `tsunami` whether the tsunami line is
shown.  The fields are the values handed to the elements; how React and the
map library draw them is outside the model. -/
structure Marker where
  key : JSVal
  center : JSVal × JSVal
  radius : Binary64
  color : String
  fillColor : String
  label : JSVal
  mag : ℚ
  time : JSVal
  felt : Option JSVal
  tsunami : Bool
  url : JSVal

/-- The callback of `data.features.map` in `MapComponent`: `none` is the
`return null` of the guard, an error is an exception: a read on `undefined`
or `null`, a destructuring of a value that is not iterable, `new Date(time)`
or `isNaN(mag)` on a value without a conversion to a primitive, `mag.toFixed`
on a value that is not a number. -/
def renderQuake (coerceNaN : JSVal → Bool) (quake : JSVal) : Except String (Option Marker) := do
  let geometry ← quake.getProp "geometry"
  let coordinates ← geometry.getProp "coordinates"
  let (lng, lat) ← destructurePair coordinates
  let properties ← quake.getProp "properties"
  let mag ← properties.getProp "mag"
  let placeRaw ← properties.getProp "place"
  let place := if placeRaw.truthy then placeRaw else JSVal.str "Unknown Location"
  let time ← properties.getProp "time"
  if toPrimitiveThrows time then
    throw "TypeError"
  let magIsNaN ← isNaN coerceNaN mag
  if magIsNaN || lat.isUndefined || lng.isUndefined then
    return none
  let key ← quake.getProp "id"
  let felt ← properties.getProp "felt"
  let tsunami ← properties.getProp "tsunami"
  let url ← properties.getProp "url"
  match mag with
  | JSVal.num m =>
      return some
        { key := key, center := (lat, lng), radius := getRadius m, color := getColor m,
          fillColor := getColor m, label := place, mag := m, time := time,
          felt := if felt.truthy then some felt else none,
          tsunami := tsunami.strictEqNum 1, url := url }
  | _ => throw "TypeError"

/-- The markers `MapComponent` renders for `data`:
`data && data.features.map(...)`, the `null` entries rendering nothing. -/
def markers (coerceNaN : JSVal → Bool) (data : JSVal) : Except String (List Marker) :=
  if data.truthy then do
    let features ← data.getProp "features"
    match features with
    | JSVal.arr quakes => do
        let rendered ← quakes.mapM (renderQuake coerceNaN)
        return rendered.filterMap id
    | _ => throw "TypeError"
  else
    return []

/-! ## MapView: `FitBounds` -/

/-- The number of UTF-16 code units of a string, its JavaScript `length`. -/
def utf16Length (s : String) : ℕ :=
  (s.data.map (fun ch => if ch.val.toNat < 65536 then 1 else 2)).sum

/-- The read `v.length`: a TypeError on `undefined` and `null`, the number of
elements of an array, the number of code units of a string, the bound value
on an object that has a key `length`, `undefined` everywhere else. -/
def getLength (v : JSVal) : Except String JSVal :=
  match v with
  | JSVal.undefined => Except.error "TypeError"
  | JSVal.null => Except.error "TypeError"
  | JSVal.arr xs => Except.ok (JSVal.num xs.length)
  | JSVal.str s => Except.ok (JSVal.num (utf16Length s))
  | JSVal.obj kvs => Except.ok ((kvs.lookup "length").getD JSVal.undefined)
  | _ => Except.ok JSVal.undefined

/-- The read `c[i]` with a literal index: a TypeError on `undefined` and
`null`, the element of an array, the character of a string (exact when the
characters before it are in the Basic Multilingual Plane), the value bound to
the key `i` on an object, `undefined` everywhere else. -/
def getIndex (c : JSVal) (i : ℕ) : Except String JSVal :=
  match c with
  | JSVal.undefined => Except.error "TypeError"
  | JSVal.null => Except.error "TypeError"
  | JSVal.arr xs => Except.ok (xs.getD i JSVal.undefined)
  | JSVal.str s =>
      Except.ok ((s.data.map (fun ch => JSVal.str (String.singleton ch))).getD i JSVal.undefined)
  | JSVal.obj kvs => Except.ok ((kvs.lookup (toString i)).getD JSVal.undefined)
  | _ => Except.ok JSVal.undefined

/-- What `FitBounds` tells the map to do: `map.setView(center, zoom)` or
`map.fitBounds(bounds, options)` with `maxZoom` and `padding`. -/
inductive MapCall (B : Type) where
  | setView (center : ℚ × ℚ) (zoom : ℕ) : MapCall B
  | fitBounds (bounds : B) (maxZoom : ℕ) (padding : ℕ × ℕ) : MapCall B

/-- The position `[coords[1], coords[0]]` that the reducer of `FitBounds`
reads off a record. -/
def quakePosition (quake : JSVal) : Except String (JSVal × JSVal) := do
  let geometry ← quake.getProp "geometry"
  let coords ← geometry.getProp "coordinates"
  let lat ← getIndex coords 1
  let lng ← getIndex coords 0
  return (lat, lng)

/-- The component `FitBounds` of `MapComponent.jsx`.  The bounds object comes
from the map library: `empty` is `new L.LatLngBounds()` and `extend` its
method `extend`, which may throw. -/
def FitBounds {B : Type} (empty : B) (extend : B → JSVal × JSVal → Except String B)
    (data : JSVal) : Except String (MapCall B) := do
  if !data.truthy then
    return MapCall.setView (0, 0) 2
  let features ← data.getProp "features"
  let length ← getLength features
  if !length.truthy then
    return MapCall.setView (0, 0) 2
  match features with
  | JSVal.arr quakes => do
      let bounds ← quakes.foldlM
        (fun bounds quake => do
          let position ← quakePosition quake
          extend bounds position)
        empty
      return MapCall.fitBounds bounds 5 (50, 50)
  | _ => throw "TypeError"

/-- The `data` that `MapComponent` hands to `FitBounds`:
`data || { features: [] }`. -/
def fitBoundsInput (data : JSVal) : JSVal :=
  if data.truthy then data else JSVal.obj [("features", JSVal.arr [])]

/-- A corner box over numeric positions: south, west, north, east. -/
structure Box where
  south : ℚ
  west : ℚ
  north : ℚ
  east : ℚ
  deriving DecidableEq

/-- An instance of the bounds interface: the smallest corner box that holds
the numeric positions it was extended with; a position that is not a pair of
numbers is rejected. -/
def boxExtend (b : Option Box) (p : JSVal × JSVal) : Except String (Option Box) :=
  match p with
  | (JSVal.num lat, JSVal.num lng) =>
      match b with
      | none => Except.ok (some ⟨lat, lng, lat, lng⟩)
      | some box =>
          Except.ok (some ⟨min lat box.south, min lng box.west, max lat box.north, max lng box.east⟩)
  | _ => Except.error "Invalid LatLng"

/-- The positions of the records that yield a marker, in feed order: the
`center` of each marker of `markers`. -/
def validPositions (coerceNaN : JSVal → Bool) (data : JSVal) : List (JSVal × JSVal) :=
  match markers coerceNaN data with
  | Except.ok ms => ms.map Marker.center
  | Except.error _ => []

/-- The bounding region as the specification words it: the region extended
over the positions of the records that yield markers, and the default world
view when there is none. -/
def fitBoundsOverMarkers {B : Type} (empty : B) (extend : B → JSVal × JSVal → Except String B)
    (coerceNaN : JSVal → Bool) (data : JSVal) : Except String (MapCall B) :=
  match validPositions coerceNaN data with
  | [] => Except.ok (MapCall.setView (0, 0) 2)
  | ps => do
      let bounds ← ps.foldlM extend empty
      return MapCall.fitBounds bounds 5 (50, 50)

/-! ## AppState: the fetch state machine of `AppProvider` -/

/-- The table `TIMEFRAMES`: the feed URL of each timeframe. -/
def TIMEFRAMES : List (String × String) :=
  [("hour", "https://earthquake.usgs.gov/earthquakes/feed/v1.0/summary/all_hour.geojson"),
    ("day", "https://earthquake.usgs.gov/earthquakes/feed/v1.0/summary/all_day.geojson"),
    ("week", "https://earthquake.usgs.gov/earthquakes/feed/v1.0/summary/all_week.geojson"),
    ("month", "https://earthquake.usgs.gov/earthquakes/feed/v1.0/summary/all_month.geojson")]

/-- One run of the effect of `AppProvider` (a fetch episode): the variables
its closures share.  `url` is the argument of `fetch`, `didCancel` the flag the
cleanup sets, `timerPending` whether the timer of `setTimeout` is registered
and has neither fired nor been cleared, `fetchPending` whether the request
has not settled yet. -/
structure Episode where
  url : Option String
  didCancel : Bool
  timerPending : Bool
  fetchPending : Bool

/-- The slot of an effect run that has not happened. -/
def Episode.unused : Episode :=
  { url := none, didCancel := false, timerPending := false, fetchPending := false }

/-- The state of `AppProvider`: the four `useState` cells, the effect runs so
far (`count` of them, numbered from 0; the last one is the current episode),
and whether a render with a new `timeframe` was committed whose effect has
not run yet. -/
structure AppState where
  timeframe : String
  data : JSVal
  loading : Bool
  error : String
  count : ℕ
  episodes : ℕ → Episode
  effectPending : Bool

/-- The state `AppProvider` is created with, which is the state of its first
render: the initial values of the four `useState` cells, no effect run yet. -/
def initialState : AppState :=
  { timeframe := "day", data := JSVal.null, loading := false, error := "", count := 0,
    episodes := fun _ => Episode.unused, effectPending := false }

/-- The cleanup function the current effect run returned:
`didCancel = true; clearTimeout(timeoutId)`. -/
def cleanup (s : AppState) : AppState :=
  if s.count = 0 then s
  else
    { s with
      episodes := Function.update s.episodes (s.count - 1)
        { s.episodes (s.count - 1) with didCancel := true, timerPending := false } }

/-- The synchronous part of `fetchData`, up to the first `await`: the three
state resets, the timer, the request. -/
def fetchData (s : AppState) : AppState :=
  { s with
    loading := true
    error := ""
    data := JSVal.null
    count := s.count + 1
    episodes := Function.update s.episodes s.count
      { url := TIMEFRAMES.lookup s.timeframe, didCancel := false, timerPending := true,
        fetchPending := true } }

/-- A run of the effect: React calls the cleanup of the previous run, then
the effect body (`fetchData()`). -/
def runEffect (s : AppState) : AppState := fetchData (cleanup s)

/-- The effect of the last committed render runs, when it has not yet. -/
def flushEffect (s : AppState) : AppState :=
  if s.effectPending then runEffect { s with effectPending := false } else s

/-- The render React commits after `setTimeframe(tf)`: the effects of the
render before it have run, `timeframe` is `tf`, the other three cells are as
they were, and the effect (its dependency `timeframe` changed) is to run.
A call with the current value changes nothing. -/
def commitTimeframe (s : AppState) (tf : String) : AppState :=
  if tf = s.timeframe then s
  else { flushEffect s with timeframe := tf, effectPending := true }

/-- The callback of `setTimeout` of episode `e`. -/
def timeoutCallback (e : ℕ) (s : AppState) : AppState :=
  if !(s.episodes e).didCancel then
    { s with error := "Error fetching data: Request timed out.", loading := false }
  else s

/-- The continuation of `fetchData` of episode `e` after the response was
read as `json`: the `if (!didCancel)` block of the `try`. -/
def fetchSucceeded (e : ℕ) (json : JSVal) (s : AppState) : AppState :=
  if !(s.episodes e).didCancel then
    { s with
      episodes := Function.update s.episodes e { s.episodes e with timerPending := false }
      data := json
      loading := false
      error := "" }
  else s

/-- The `catch` block of `fetchData` of episode `e`: the request was
rejected, the status was not ok, or the body did not parse. -/
def fetchFailed (e : ℕ) (s : AppState) : AppState :=
  if !(s.episodes e).didCancel then
    { s with
      episodes := Function.update s.episodes e { s.episodes e with timerPending := false }
      error := "Error fetching data"
      loading := false }
  else s

/-- What can happen to `AppProvider`: the effect of its first render runs
(`mount`), the timeframe is set and the render with it is committed, the
effect of that render runs, and for an episode `e` the request succeeds with
a parsed body, the request fails, or the timer fires. -/
inductive Event where
  | mount : Event
  | setTimeframe (tf : String) : Event
  | effectRun : Event
  | fetchResolved (e : ℕ) (json : JSVal) : Event
  | fetchRejected (e : ℕ) : Event
  | timerFired (e : ℕ) : Event

/-- One event, taken atomically (the state updates of one callback are
batched into one render).  The resets of `fetchData` are inside the effect,
so they happen at `effectRun`, after the render with the new timeframe was
committed; a request settles once; a timer fires only while it is pending. -/
def step (s : AppState) : Event → AppState
  | Event.mount => runEffect s
  | Event.setTimeframe tf => commitTimeframe s tf
  | Event.effectRun => flushEffect s
  | Event.fetchResolved e json =>
      if (s.episodes e).fetchPending then
        fetchSucceeded e json
          { s with
            episodes := Function.update s.episodes e { s.episodes e with fetchPending := false } }
      else s
  | Event.fetchRejected e =>
      if (s.episodes e).fetchPending then
        fetchFailed e
          { s with
            episodes := Function.update s.episodes e { s.episodes e with fetchPending := false } }
      else s
  | Event.timerFired e =>
      if (s.episodes e).timerPending then
        timeoutCallback e
          { s with
            episodes := Function.update s.episodes e { s.episodes e with timerPending := false } }
      else s

/-- The state after a sequence of events. -/
def run (s : AppState) (evs : List Event) : AppState := evs.foldl step s

/-- The public fields of the context value: timeframe, data, loading, error. -/
def AppState.pub (s : AppState) : String × JSVal × Bool × String :=
  (s.timeframe, s.data, s.loading, s.error)

/-- Episode `e` was superseded: a later effect run exists. -/
def superseded (s : AppState) (e : ℕ) : Prop := e + 1 < s.count

instance (s : AppState) (e : ℕ) : Decidable (superseded s e) :=
  inferInstanceAs (Decidable (e + 1 < s.count))

/-- Whether an event is a callback (success, failure, timer) of an episode
that is superseded in `s`. -/
def staleCallback (s : AppState) : Event → Bool
  | Event.fetchResolved e _ => decide (superseded s e)
  | Event.fetchRejected e => decide (superseded s e)
  | Event.timerFired e => decide (superseded s e)
  | _ => false

/-- A sequence of events run from `s`, without the callbacks that arrive for
an episode superseded by then. -/
def dropStale : AppState → List Event → List Event
  | _, [] => []
  | s, ev :: evs =>
      if staleCallback s ev then dropStale (step s ev) evs
      else ev :: dropStale (step s ev) evs

/-- Two states agree on the public fields, on the number of effect runs, on
the pending effect, and on the current episode and the unused slots. -/
def sameCurrent (a b : AppState) : Prop :=
  a.pub = b.pub ∧ a.count = b.count ∧ a.effectPending = b.effectPending ∧
    ∀ e, a.count ≤ e + 1 → a.episodes e = b.episodes e

/-- The public fields are those of exactly one fetch state. -/
def consistent (s : AppState) : Prop :=
  (s.data.isNull = false → s.loading = false ∧ s.error = "") ∧
  (s.error ≠ "" → s.loading = false ∧ s.data.isNull = true) ∧
  (s.loading = true → s.data.isNull = true ∧ s.error = "")

/-- The invariant of the reachable states: every superseded episode is
cancelled with its timer cleared, the current one is not cancelled, its
timer is pending only while its request is, the dataset is absent while its
request is pending, and no slot beyond the runs so far is in use. -/
def wellFormed (s : AppState) : Prop :=
  (∀ e, e + 1 < s.count → (s.episodes e).didCancel = true ∧ (s.episodes e).timerPending = false) ∧
  (∀ e, e + 1 = s.count → (s.episodes e).didCancel = false ∧
    ((s.episodes e).timerPending = true → (s.episodes e).fetchPending = true) ∧
    ((s.episodes e).fetchPending = true → s.data.isNull = true)) ∧
  (∀ e, s.count ≤ e → (s.episodes e).timerPending = false ∧ (s.episodes e).fetchPending = false) ∧
  consistent s

/-! ## Sample feeds -/

/-- The binary64 value of the literal `5.4`. -/
def magTokyo : ℚ := 6079859496950170 / 1125899906842624

/-- The binary64 product of the binary64 value of `5.4` and 3, which prints as
`16.200000000000003`. -/
def radiusTokyo : ℚ := 4559894622712628 / 281474976710656

/-- The feed of the end-to-end scenario: one feature `x1` at `[139.0, 35.0]`
with magnitude 5.4, place Tokyo and tsunami 0. -/
def tokyoQuake : List (String × JSVal) :=
  [("id", JSVal.str "x1"),
    ("geometry", JSVal.obj [("coordinates", JSVal.arr [JSVal.num 139.0, JSVal.num 35.0])]),
    ("properties", JSVal.obj [("mag", JSVal.num magTokyo), ("place", JSVal.str "Tokyo"),
      ("time", JSVal.num 1700000000000), ("tsunami", JSVal.num 0)])]

/-- The dataset of the end-to-end scenario. -/
def tokyoData : JSVal := JSVal.obj [("features", JSVal.arr [JSVal.obj tokyoQuake])]

/-- A record without `mag` at `[60, 50]`: it yields no marker. -/
def noMagnitudeQuake : JSVal :=
  JSVal.obj [("id", JSVal.str "n"),
    ("geometry", JSVal.obj [("coordinates", JSVal.arr [JSVal.num 60, JSVal.num 50])]),
    ("properties", JSVal.obj [("place", JSVal.str "N")])]

/-- A record without `mag` whose `time` is an object with an own key
`toString`: `new Date(time)` throws on it. -/
def noMagnitudeBadTimeQuake : JSVal :=
  JSVal.obj [("id", JSVal.str "t"),
    ("geometry", JSVal.obj [("coordinates", JSVal.arr [JSVal.num 60, JSVal.num 50])]),
    ("properties", JSVal.obj [("time", JSVal.obj [("toString", JSVal.num 0)])])]

/-- A record of magnitude 3 at `[10, 20]` whose `time` is an object with an
own key `toString`. -/
def badTimeQuake : JSVal :=
  JSVal.obj [("id", JSVal.str "u"),
    ("geometry", JSVal.obj [("coordinates", JSVal.arr [JSVal.num 10, JSVal.num 20])]),
    ("properties", JSVal.obj [("mag", JSVal.num 3),
      ("time", JSVal.obj [("toString", JSVal.num 0)])])]

/-- A well-formed record of magnitude 3 at `[10, 20]`. -/
def plainQuake : JSVal :=
  JSVal.obj [("id", JSVal.str "a"),
    ("geometry", JSVal.obj [("coordinates", JSVal.arr [JSVal.num 10, JSVal.num 20])]),
    ("properties", JSVal.obj [("mag", JSVal.num 3), ("place", JSVal.str "A")])]

/-- A record whose magnitude is `null`, as the feed sends for an event without
a computed magnitude. -/
def nullMagnitudeQuake : JSVal :=
  JSVal.obj [("id", JSVal.str "b"),
    ("geometry", JSVal.obj [("coordinates", JSVal.arr [JSVal.num 30, JSVal.num 40])]),
    ("properties", JSVal.obj [("mag", JSVal.null), ("place", JSVal.str "B")])]

/-- A feed of the well-formed record followed by the record of `null`
magnitude. -/
def nullMagnitudeData : JSVal :=
  JSVal.obj [("features", JSVal.arr [plainQuake, nullMagnitudeQuake])]

/-! ## Theorems: VisualEncoder -/

/-- C1. `getColor` is the step function of the magnitude table: below 2 it is
`#0033cc`, from 2 up to 3 `#0066ff`, from 3 up to 4 `#009900`, from 4 up to 5
`#ffff00`, from 5 up to 6 `#ff9900`, from 6 up to 7 `#ff0000`, from 7 on
`#990000`; each boundary value 2, 3, 4, 5, 6, 7 has the colour of the upper
bracket. -/
theorem getColor_step (m : ℚ) :
    (m < 2 → getColor m = "#0033cc") ∧
    (2 ≤ m ∧ m < 3 → getColor m = "#0066ff") ∧
    (3 ≤ m ∧ m < 4 → getColor m = "#009900") ∧
    (4 ≤ m ∧ m < 5 → getColor m = "#ffff00") ∧
    (5 ≤ m ∧ m < 6 → getColor m = "#ff9900") ∧
    (6 ≤ m ∧ m < 7 → getColor m = "#ff0000") ∧
    (7 ≤ m → getColor m = "#990000") ∧
    getColor 2 = "#0066ff" ∧ getColor 3 = "#009900" ∧ getColor 4 = "#ffff00" ∧
    getColor 5 = "#ff9900" ∧ getColor 6 = "#ff0000" ∧ getColor 7 = "#990000" := by
  have key : ∀ x : ℚ, getColor x =
      if 7 ≤ x then "#990000" else if 6 ≤ x then "#ff0000" else if 5 ≤ x then "#ff9900"
      else if 4 ≤ x then "#ffff00" else if 3 ≤ x then "#009900"
      else if 2 ≤ x then "#0066ff" else "#0033cc" := by
    intro x
    simp only [getColor, colors, ge_iff_le]
    norm_num
  refine ⟨?_, ?_, ?_, ?_, ?_, ?_, ?_, ?_, ?_, ?_, ?_, ?_, ?_⟩
  · intro h
    rw [key, if_neg (by linarith), if_neg (by linarith), if_neg (by linarith),
      if_neg (by linarith), if_neg (by linarith), if_neg (by linarith)]
  · rintro ⟨h1, h2⟩
    rw [key, if_neg (by linarith), if_neg (by linarith), if_neg (by linarith),
      if_neg (by linarith), if_neg (by linarith), if_pos h1]
  · rintro ⟨h1, h2⟩
    rw [key, if_neg (by linarith), if_neg (by linarith), if_neg (by linarith),
      if_neg (by linarith), if_pos h1]
  · rintro ⟨h1, h2⟩
    rw [key, if_neg (by linarith), if_neg (by linarith), if_neg (by linarith), if_pos h1]
  · rintro ⟨h1, h2⟩
    rw [key, if_neg (by linarith), if_neg (by linarith), if_pos h1]
  · rintro ⟨h1, h2⟩
    rw [key, if_neg (by linarith), if_pos h1]
  · intro h
    rw [key, if_pos h]
  all_goals (rw [key]; norm_num)

theorem roundHalfEven_le (x : ℚ) (n : ℤ) (h : x ≤ n) : roundHalfEven x ≤ n := by
  have hf : ⌊x⌋ ≤ n := by
    have : (⌊x⌋ : ℚ) ≤ n := le_trans (Int.floor_le x) h
    exact_mod_cast this
  unfold roundHalfEven
  rcases lt_or_eq_of_le hf with hlt | heq
  · split_ifs <;> omega
  · have hx : x - ⌊x⌋ < 1 / 2 := by rw [heq]; linarith
    rw [if_pos hx]
    exact hf

theorem roundHalfEven_nonneg (x : ℚ) (h : 0 ≤ x) : 0 ≤ roundHalfEven x := by
  have hf : 0 ≤ ⌊x⌋ := Int.floor_nonneg.mpr h
  unfold roundHalfEven
  split_ifs <;> omega

theorem log_eq_of_bounds (x : ℚ) (k : ℤ) (h1 : (2 : ℚ) ^ k ≤ x) (h2 : x < (2 : ℚ) ^ (k + 1)) :
    Int.log 2 x = k := by
  have hx : 0 < x := lt_of_lt_of_le (by positivity) h1
  have a : k ≤ Int.log 2 x := (Int.zpow_le_iff_le_log (by norm_num) hx).mp (by exact_mod_cast h1)
  have b : Int.log 2 x < k + 1 := (Int.lt_zpow_iff_log_lt (by norm_num) hx).mp (by exact_mod_cast h2)
  omega

theorem roundBinary64_le_six (x : ℚ) (h : x ≤ 6) :
    roundBinary64 x = Binary64.negInf ∨ ∃ y : ℚ, roundBinary64 x = Binary64.finite y ∧ y ≤ 6 := by
  have hm0 : (0 : ℚ) ≤ (roundHalfEven (|x| / 2 ^ ulpExponent x) : ℚ) * 2 ^ ulpExponent x := by
    have h1 : 0 ≤ roundHalfEven (|x| / 2 ^ ulpExponent x) :=
      roundHalfEven_nonneg _ (div_nonneg (abs_nonneg x) (by positivity))
    have h2 : (0 : ℚ) ≤ (roundHalfEven (|x| / 2 ^ ulpExponent x) : ℚ) := by exact_mod_cast h1
    positivity
  rcases le_or_lt x 0 with hx | hx
  · unfold roundBinary64
    split_ifs with c1 c2 c3
    · exact absurd c2 (not_lt.mpr hx)
    · exact Or.inl rfl
    · have hx0 : x = 0 := le_antisymm hx c3
      subst hx0
      refine Or.inr ⟨_, rfl, ?_⟩
      simp [roundHalfEven]
    · exact Or.inr ⟨_, rfl, by linarith⟩
  · have habs : |x| = x := abs_of_pos hx
    have hlog : Int.log 2 x < 3 :=
      (Int.lt_zpow_iff_log_lt (by norm_num) hx).mp (by norm_num; linarith)
    have he : ulpExponent x ≤ -50 := by
      unfold ulpExponent
      rw [habs]
      exact max_le (by omega) (by norm_num)
    obtain ⟨n, hn⟩ : ∃ n : ℕ, ulpExponent x = -(n : ℤ) := ⟨(-ulpExponent x).toNat, by omega⟩
    have hpow : (2 : ℚ) ^ ulpExponent x = ((2 : ℚ) ^ n)⁻¹ := by
      rw [hn, zpow_neg, zpow_natCast]
    have hle : roundHalfEven (|x| / 2 ^ ulpExponent x) ≤ 6 * 2 ^ n := by
      apply roundHalfEven_le
      rw [habs, hpow, div_inv_eq_mul]
      push_cast
      have : (0 : ℚ) < 2 ^ n := by positivity
      nlinarith
    have hv : (roundHalfEven (|x| / 2 ^ ulpExponent x) : ℚ) * 2 ^ ulpExponent x ≤ 6 := by
      have h1 : (roundHalfEven (|x| / 2 ^ ulpExponent x) : ℚ) ≤ 6 * 2 ^ n := by exact_mod_cast hle
      have hp : (0 : ℚ) < 2 ^ n := by positivity
      generalize (roundHalfEven (|x| / 2 ^ ulpExponent x) : ℚ) = m at h1
      rw [hpow, ← div_eq_mul_inv, div_le_iff₀ hp]
      exact h1
    unfold roundBinary64
    have hno : ¬ (2 : ℚ) ^ (1024 : ℤ) ≤
        (roundHalfEven (|x| / 2 ^ ulpExponent x) : ℚ) * 2 ^ ulpExponent x := by
      intro hc
      have h3 : (2 : ℚ) ^ (3 : ℤ) ≤ 2 ^ (1024 : ℤ) :=
        zpow_le_zpow_right₀ (by norm_num) (by norm_num)
      have h8 : (2 : ℚ) ^ (3 : ℤ) = 8 := by norm_num
      linarith
    rw [if_neg hno, if_pos (le_of_lt hx)]
    exact Or.inr ⟨_, rfl, hv⟩

theorem roundBinary64_eval (x : ℚ) (k m : ℤ) (h1 : (2 : ℚ) ^ k ≤ x) (h2 : x < (2 : ℚ) ^ (k + 1))
    (hk : -1022 ≤ k) (hm : roundHalfEven (x / 2 ^ (k - 52)) = m) :
    roundBinary64 x =
      if (2 : ℚ) ^ (1024 : ℤ) ≤ (m : ℚ) * 2 ^ (k - 52) then Binary64.posInf
      else Binary64.finite ((m : ℚ) * 2 ^ (k - 52)) := by
  have hx : 0 < x := lt_of_lt_of_le (by positivity) h1
  have habs : |x| = x := abs_of_pos hx
  have he : ulpExponent x = k - 52 := by
    unfold ulpExponent
    rw [habs, log_eq_of_bounds x k h1 h2]
    exact max_eq_left (by omega)
  unfold roundBinary64
  rw [habs, he, hm, if_pos hx, if_pos (le_of_lt hx)]

theorem roundBinary64_literal : roundBinary64 5.4 = Binary64.finite magTokyo := by
  rw [roundBinary64_eval 5.4 2 6079859496950170 (by norm_num) (by norm_num) (by norm_num)
    (by simp only [roundHalfEven]; norm_num)]
  rw [if_neg (by norm_num)]
  simp only [magTokyo]
  norm_num

theorem roundBinary64_product : roundBinary64 (magTokyo * 3) =
    Binary64.finite radiusTokyo := by
  rw [roundBinary64_eval (magTokyo * 3) 4 4559894622712628 (by norm_num [magTokyo])
    (by norm_num [magTokyo]) (by norm_num)
    (by simp only [roundHalfEven, magTokyo]; norm_num)]
  rw [if_neg (by norm_num)]
  simp only [radiusTokyo]
  norm_num

theorem roundBinary64_overflow : roundBinary64 (2 ^ (1023 : ℤ) * 3) = Binary64.posInf := by
  have hP : (0 : ℚ) < 2 ^ (1023 : ℤ) := by positivity
  have e1 : (2 : ℚ) ^ (1024 : ℤ) = 2 ^ (1023 : ℤ) * 2 := zpow_add_one₀ (by norm_num) 1023
  have e2 : (2 : ℚ) ^ (1024 + 1 : ℤ) = 2 ^ (1023 : ℤ) * 2 * 2 := by
    rw [zpow_add_one₀ (by norm_num) 1024, e1]
  have e3 : (2 : ℚ) ^ (1023 : ℤ) = 2 ^ (51 : ℤ) * 2 ^ (1024 - 52 : ℤ) := by
    rw [← zpow_add₀ (by norm_num)]
    norm_num
  have e4 : (2 : ℚ) ^ (51 : ℤ) = ((2 ^ 51 : ℤ) : ℚ) := by norm_num
  have hq : (0 : ℚ) < 2 ^ (1024 - 52 : ℤ) := by positivity
  have hdiv : (2 : ℚ) ^ (1023 : ℤ) * 3 / 2 ^ (1024 - 52 : ℤ) = ((3 * 2 ^ 51 : ℤ) : ℚ) := by
    have hq1 := hq
    rw [e3, e4]
    generalize (2 : ℚ) ^ (1024 - 52 : ℤ) = q at hq1
    rw [div_eq_iff (ne_of_gt hq1)]
    push_cast
    ring
  have hmul : (((3 * 2 ^ 51 : ℤ) : ℚ)) * 2 ^ (1024 - 52 : ℤ) = 2 ^ (1023 : ℤ) * 3 := by
    rw [← hdiv, div_mul_cancel₀ _ (ne_of_gt hq)]
  have hr : roundHalfEven ((2 : ℚ) ^ (1023 : ℤ) * 3 / 2 ^ (1024 - 52 : ℤ)) = 3 * 2 ^ 51 := by
    rw [hdiv]
    simp [roundHalfEven]
  rw [roundBinary64_eval (2 ^ (1023 : ℤ) * 3) 1024 (3 * 2 ^ 51) (by rw [e1]; linarith)
    (by rw [e2]; linarith) (by norm_num) hr]
  rw [if_pos (by rw [hmul, e1]; linarith)]

theorem getRadius_of_posInf (m : ℚ) (h : roundBinary64 (m * 3) = Binary64.posInf) :
    getRadius m = Binary64.posInf := by
  unfold getRadius
  rw [h]

theorem getRadius_magTokyo : getRadius magTokyo = Binary64.finite radiusTokyo := by
  unfold getRadius
  rw [roundBinary64_product]
  simp only [radiusTokyo]
  norm_num

theorem radiusTokyo_ne_exact :
    Binary64.finite radiusTokyo ≠ Binary64.finite (max (3 * magTokyo) 6) := by
  simp only [radiusTokyo, magTokyo, ne_eq, Binary64.finite.injEq]
  norm_num

/-- C2 (amended). `getRadius m` is `max` of 6 and the binary64 product of `m`
and 3: it is `max (3 * m) 6` whenever the product is itself a binary64 value,
it is never below 6, and it is exactly 6 for every `m ≤ 2`, zero and the
negative magnitudes included. -/
theorem getRadius_spec (m : ℚ) :
    (∀ p : ℚ, roundBinary64 (3 * m) = Binary64.finite p →
      getRadius m = Binary64.finite (max p 6)) ∧
    (roundBinary64 (3 * m) = Binary64.finite (3 * m) →
      getRadius m = Binary64.finite (max (3 * m) 6)) ∧
    (getRadius m = Binary64.posInf ∨ ∃ r : ℚ, getRadius m = Binary64.finite r ∧ 6 ≤ r) ∧
    (m ≤ 2 → getRadius m = Binary64.finite 6) := by
  have hp : ∀ p : ℚ, roundBinary64 (3 * m) = Binary64.finite p →
      getRadius m = Binary64.finite (max p 6) := by
    intro p h
    unfold getRadius
    rw [mul_comm, h]
  refine ⟨hp, hp _, ?_, ?_⟩
  · unfold getRadius
    cases roundBinary64 (m * 3) with
    | finite p => exact Or.inr ⟨_, rfl, le_max_right _ _⟩
    | posInf => exact Or.inl rfl
    | negInf => exact Or.inr ⟨_, rfl, le_refl _⟩
  · intro h
    unfold getRadius
    rcases roundBinary64_le_six (m * 3) (by linarith) with h1 | ⟨y, h1, hy⟩
    · rw [h1]
    · rw [h1]
      simp only [max_eq_right hy]

/-- C2 (as stated, refuted). For the magnitude 5.4 (its binary64 value) the
product with 3 is not a binary64 value: `getRadius` gives the rounded product,
which prints as `16.200000000000003`, not `max (3 * m) 6`; for the magnitude
`2 ^ 1023` the product overflows and `getRadius` gives `Infinity`. -/
theorem getRadius_counterexample :
    roundBinary64 5.4 = Binary64.finite magTokyo ∧
    getRadius magTokyo = Binary64.finite radiusTokyo ∧
    getRadius magTokyo ≠ Binary64.finite (max (3 * magTokyo) 6) ∧
    getRadius (2 ^ (1023 : ℤ)) = Binary64.posInf :=
  ⟨roundBinary64_literal, getRadius_magTokyo,
    by rw [getRadius_magTokyo]; exact radiusTokyo_ne_exact,
    getRadius_of_posInf _ roundBinary64_overflow⟩

/-- C2 (amended) at the magnitudes 3 and 2: the product 9 is a binary64
value, and the floor applies at 2. -/
theorem getRadius_spec_witness :
    getRadius 3 = Binary64.finite (max (3 * 3) 6) ∧ getRadius 2 = Binary64.finite 6 :=
  ⟨(getRadius_spec 3).2.1 (by
      rw [roundBinary64_eval (3 * 3) 3 5066549580791808 (by norm_num) (by norm_num)
        (by norm_num) (by simp only [roundHalfEven]; norm_num)]
      rw [if_neg (by norm_num)]
      norm_num),
    (getRadius_spec 2).2.2.2 (le_refl 2)⟩

/-! ## Theorems: the marker projection -/

theorem renderQuake_obj (c : JSVal → Bool) (qkvs gkvs pkvs : List (String × JSVal))
    (cs : List JSVal)
    (hg : qkvs.lookup "geometry" = some (JSVal.obj gkvs))
    (hc : gkvs.lookup "coordinates" = some (JSVal.arr cs))
    (hp : qkvs.lookup "properties" = some (JSVal.obj pkvs)) :
    renderQuake c (JSVal.obj qkvs) =
      (if toPrimitiveThrows ((pkvs.lookup "time").getD JSVal.undefined) then
        Except.error "TypeError"
       else
        match isNaN c ((pkvs.lookup "mag").getD JSVal.undefined) with
        | Except.error e => Except.error e
        | Except.ok magIsNaN =>
          if magIsNaN
              || (cs.getD 1 JSVal.undefined).isUndefined || (cs.getD 0 JSVal.undefined).isUndefined
          then Except.ok none
          else match (pkvs.lookup "mag").getD JSVal.undefined with
            | JSVal.num m => Except.ok (some
                { key := (qkvs.lookup "id").getD JSVal.undefined,
                  center := (cs.getD 1 JSVal.undefined, cs.getD 0 JSVal.undefined),
                  radius := getRadius m, color := getColor m, fillColor := getColor m,
                  label := if ((pkvs.lookup "place").getD JSVal.undefined).truthy
                    then (pkvs.lookup "place").getD JSVal.undefined
                    else JSVal.str "Unknown Location",
                  mag := m, time := (pkvs.lookup "time").getD JSVal.undefined,
                  felt := if ((pkvs.lookup "felt").getD JSVal.undefined).truthy
                    then some ((pkvs.lookup "felt").getD JSVal.undefined) else none,
                  tsunami := ((pkvs.lookup "tsunami").getD JSVal.undefined).strictEqNum 1,
                  url := (pkvs.lookup "url").getD JSVal.undefined })
            | _ => Except.error "TypeError") := by
  simp only [renderQuake, JSVal.getProp, hg, hc, hp, Option.getD_some, destructurePair, bind,
    Except.bind, pure, Except.pure]
  split
  · rfl
  · cases isNaN c ((pkvs.lookup "mag").getD JSVal.undefined) with
    | error e => rfl
    | ok b =>
      simp only
      split
      · rfl
      · split <;> rfl

theorem markers_features (c : JSVal → Bool) (quakes : List JSVal)
    (others : List (String × JSVal)) :
    markers c (JSVal.obj (("features", JSVal.arr quakes) :: others)) =
      match quakes.mapM (renderQuake c) with
      | Except.ok rendered => Except.ok (rendered.filterMap id)
      | Except.error e => Except.error e := by
  simp only [markers, JSVal.truthy, JSVal.getProp, List.lookup, beq_self_eq_true,
    Option.getD_some, if_true, bind, Except.bind, pure, Except.pure]
  cases quakes.mapM (renderQuake c) <;> rfl

theorem mapM_skip (f : JSVal → Except String (Option Marker)) (pre post : List JSVal)
    (r : JSVal) (hr : f r = Except.ok none) :
    (match (pre ++ r :: post).mapM f with
      | Except.ok rendered => Except.ok (rendered.filterMap id)
      | Except.error e => (Except.error e : Except String (List Marker))) =
    (match (pre ++ post).mapM f with
      | Except.ok rendered => Except.ok (rendered.filterMap id)
      | Except.error e => Except.error e) := by
  rw [List.mapM_append, List.mapM_append, List.mapM_cons, hr]
  simp only [bind, Except.bind, pure, Except.pure]
  cases pre.mapM f with
  | error e => rfl
  | ok a =>
    cases post.mapM f with
    | error e => rfl
    | ok b => simp [List.filterMap_append]

theorem renderQuake_some (c : JSVal → Bool) (quake : JSVal) (mk : Marker)
    (h : renderQuake c quake = Except.ok (some mk)) :
    ∃ geometry coordinates properties lng lat,
      quake.getProp "geometry" = Except.ok geometry ∧
      geometry.getProp "coordinates" = Except.ok coordinates ∧
      destructurePair coordinates = Except.ok (lng, lat) ∧
      quake.getProp "properties" = Except.ok properties ∧
      properties.getProp "mag" = Except.ok (JSVal.num mk.mag) ∧
      lng.isUndefined = false ∧ lat.isUndefined = false ∧ mk.center = (lat, lng) := by
  unfold renderQuake at h
  simp only [bind, Except.bind, pure, Except.pure] at h
  cases hg : quake.getProp "geometry" with
  | error e => rw [hg] at h; cases h
  | ok geometry =>
    rw [hg] at h
    simp only at h
    cases hc : geometry.getProp "coordinates" with
    | error e => rw [hc] at h; cases h
    | ok coordinates =>
      rw [hc] at h
      simp only at h
      cases hd : destructurePair coordinates with
      | error e => rw [hd] at h; cases h
      | ok pr =>
        obtain ⟨lng, lat⟩ := pr
        rw [hd] at h
        simp only at h
        cases hp : quake.getProp "properties" with
        | error e => rw [hp] at h; cases h
        | ok properties =>
          rw [hp] at h
          simp only at h
          cases hm : properties.getProp "mag" with
          | error e => rw [hm] at h; cases h
          | ok mag =>
            rw [hm] at h
            simp only at h
            split at h
            · cases h
            split at h
            · cases h
            split at h
            · cases h
            split at h
            · cases h
            split at h
            · cases h
            rename_i hguard
            simp only [Bool.or_eq_true, not_or, Bool.not_eq_true] at hguard
            split at h
            · cases h
            split at h
            · cases h
            split at h
            · cases h
            split at h
            · cases h
            split at h
            · simp only [Except.ok.injEq, Option.some.injEq] at h
              subst h
              exact ⟨geometry, coordinates, properties, lng, lat, rfl, hc, hd, rfl, hm,
                hguard.2, hguard.1.2, rfl⟩
            · cases h

/-- C5 (the code at the failing input). On a feed whose second record has
`mag: null` the marker projection throws: `isNaN(null)` is false, so the guard
does not skip the record, and `mag.toFixed(1)` is a read on `null`.  The
well-formed first record alone yields its marker; in the feed with the `null`
record no marker is rendered at all. -/
theorem markers_null_magnitude_throws (c : JSVal → Bool) :
    isNaN c JSVal.null = Except.ok false ∧
    renderQuake c nullMagnitudeQuake = Except.error "TypeError" ∧
    (∃ mk : Marker, markers c (JSVal.obj [("features", JSVal.arr [plainQuake])]) =
      Except.ok [mk] ∧ mk.key = JSVal.str "a") ∧
    markers c nullMagnitudeData = Except.error "TypeError" := by
  refine ⟨rfl, rfl, ⟨_, rfl, rfl⟩, rfl⟩

/-- C6 (as stated, refuted). A record that lacks `mag`, has a geometry with
coordinates, and whose `time` is an object with an own key `toString`:
`new Date(time)` throws before the guard is reached, so the feed of a
well-formed record and this record yields no marker, while the well-formed
record alone yields its marker. -/
theorem markers_bad_time_counterexample :
    renderQuake (fun _ => true) noMagnitudeBadTimeQuake = Except.error "TypeError" ∧
    markers (fun _ => true)
        (JSVal.obj [("features", JSVal.arr [plainQuake, noMagnitudeBadTimeQuake])]) =
      Except.error "TypeError" ∧
    (∃ mk : Marker, markers (fun _ => true) (JSVal.obj [("features", JSVal.arr [plainQuake])]) =
      Except.ok [mk] ∧ mk.key = JSVal.str "a") ∧
    markers (fun _ => true)
        (JSVal.obj [("features", JSVal.arr [plainQuake, noMagnitudeBadTimeQuake])]) ≠
      markers (fun _ => true) (JSVal.obj [("features", JSVal.arr [plainQuake])]) := by
  have h1 : markers (fun _ => true)
        (JSVal.obj [("features", JSVal.arr [plainQuake, noMagnitudeBadTimeQuake])]) =
      Except.error "TypeError" := rfl
  have h2 : ∃ mk : Marker,
      markers (fun _ => true) (JSVal.obj [("features", JSVal.arr [plainQuake])]) =
        Except.ok [mk] ∧ mk.key = JSVal.str "a" := ⟨_, rfl, rfl⟩
  refine ⟨rfl, h1, h2, ?_⟩
  obtain ⟨mk, hmk, -⟩ := h2
  rw [h1, hmk]
  intro h
  cases h

/-- C6 (amended). A record that lacks the magnitude property, has a geometry
with a coordinates array, and whose `time` converts to a primitive yields no
marker, and the markers of a dataset that holds it are exactly the markers of
the dataset without it, in the same order. -/
theorem markers_skip_missing_magnitude (c : JSVal → Bool) (pre post : List JSVal)
    (others qkvs gkvs pkvs : List (String × JSVal)) (cs : List JSVal)
    (hg : qkvs.lookup "geometry" = some (JSVal.obj gkvs))
    (hc : gkvs.lookup "coordinates" = some (JSVal.arr cs))
    (hp : qkvs.lookup "properties" = some (JSVal.obj pkvs))
    (hm : pkvs.lookup "mag" = none)
    (ht : toPrimitiveThrows ((pkvs.lookup "time").getD JSVal.undefined) = false) :
    renderQuake c (JSVal.obj qkvs) = Except.ok none ∧
    markers c (JSVal.obj (("features", JSVal.arr (pre ++ JSVal.obj qkvs :: post)) :: others)) =
      markers c (JSVal.obj (("features", JSVal.arr (pre ++ post)) :: others)) := by
  have hr : renderQuake c (JSVal.obj qkvs) = Except.ok none := by
    rw [renderQuake_obj c qkvs gkvs pkvs cs hg hc hp, hm, ht]
    simp [isNaN, toPrimitiveThrows]
  exact ⟨hr, by rw [markers_features, markers_features]; exact mapM_skip _ pre post _ hr⟩

theorem strictEqNum_iff (v : JSVal) (q : ℚ) : v.strictEqNum q = true ↔ v = JSVal.num q := by
  cases v <;> simp [JSVal.strictEqNum]

theorem roundBinary64_sixteen_two :
    roundBinary64 16.2 = Binary64.finite (4559894622712627 / 281474976710656) := by
  rw [roundBinary64_eval 16.2 4 4559894622712627 (by norm_num) (by norm_num) (by norm_num)
    (by simp only [roundHalfEven]; norm_num)]
  rw [if_neg (by norm_num)]
  norm_num

/-- C7 (as stated, refuted). The marker of the end-to-end scenario has the
radius that prints as `16.200000000000003`, the binary64 product of 5.4 and 3:
it is neither the number 16.2 nor the binary64 value of the literal `16.2`.
And a record of numeric magnitude with coordinates whose `time` is an object
with an own key `toString` yields no marker: `new Date(time)` throws. -/
theorem renderQuake_marker_counterexample :
    (∃ mk : Marker, markers (fun _ => true) tokyoData = Except.ok [mk] ∧
      mk.radius = Binary64.finite radiusTokyo ∧ mk.radius ≠ Binary64.finite 16.2 ∧
      mk.radius ≠ roundBinary64 16.2) ∧
    renderQuake (fun _ => true) badTimeQuake = Except.error "TypeError" := by
  refine ⟨⟨_, rfl, getRadius_magTokyo, ?_, ?_⟩, rfl⟩
  · show getRadius magTokyo ≠ Binary64.finite 16.2
    rw [getRadius_magTokyo]
    simp only [radiusTokyo, ne_eq, Binary64.finite.injEq]
    norm_num
  · show getRadius magTokyo ≠ roundBinary64 16.2
    rw [getRadius_magTokyo, roundBinary64_sixteen_two]
    simp only [radiusTokyo, ne_eq, Binary64.finite.injEq]
    norm_num

/-- C7 (amended). A record with a numeric magnitude `m`, coordinates
`[lng, lat, ...]` and a `time` that converts to a primitive yields a marker at
`(lat, lng)` with colour `getColor m`, radius `getRadius m`, the record id as
key, the place as label (`Unknown Location` when the place is absent, `null`
or empty) and a tsunami line exactly when `tsunami` is the number 1.  The
dataset of the end-to-end scenario yields exactly one marker, at `(35, 139)`,
of colour `#ff9900`, of the radius that prints as `16.200000000000003`, label
Tokyo, no tsunami line. -/
theorem renderQuake_marker (c : JSVal → Bool) (qkvs gkvs pkvs : List (String × JSVal))
    (lng lat : JSVal) (more : List JSVal) (m : ℚ)
    (hg : qkvs.lookup "geometry" = some (JSVal.obj gkvs))
    (hc : gkvs.lookup "coordinates" = some (JSVal.arr (lng :: lat :: more)))
    (hp : qkvs.lookup "properties" = some (JSVal.obj pkvs))
    (hm : pkvs.lookup "mag" = some (JSVal.num m))
    (hlng : lng.isUndefined = false) (hlat : lat.isUndefined = false)
    (ht : toPrimitiveThrows ((pkvs.lookup "time").getD JSVal.undefined) = false) :
    (∃ mk : Marker,
      renderQuake c (JSVal.obj qkvs) = Except.ok (some mk) ∧
      markers c (JSVal.obj [("features", JSVal.arr [JSVal.obj qkvs])]) = Except.ok [mk] ∧
      mk.center = (lat, lng) ∧ mk.color = getColor m ∧ mk.fillColor = getColor m ∧
      mk.radius = getRadius m ∧ mk.key = (qkvs.lookup "id").getD JSVal.undefined ∧
      (pkvs.lookup "place" = none ∨ pkvs.lookup "place" = some JSVal.null ∨
        pkvs.lookup "place" = some (JSVal.str "") →
        mk.label = JSVal.str "Unknown Location") ∧
      (∀ s : String, s ≠ "" → pkvs.lookup "place" = some (JSVal.str s) →
        mk.label = JSVal.str s) ∧
      (mk.tsunami = true ↔ (pkvs.lookup "tsunami").getD JSVal.undefined = JSVal.num 1)) ∧
    (∃ mk : Marker,
      markers c tokyoData = Except.ok [mk] ∧
      mk.center = (JSVal.num 35.0, JSVal.num 139.0) ∧ mk.color = "#ff9900" ∧
      mk.radius = Binary64.finite radiusTokyo ∧ mk.label = JSVal.str "Tokyo" ∧
      mk.tsunami = false ∧ mk.key = JSVal.str "x1") := by
  have hr := renderQuake_obj c qkvs gkvs pkvs (lng :: lat :: more) hg hc hp
  simp only [hm, ht, Option.getD_some, isNaN, toPrimitiveThrows, List.getD_cons_succ,
    List.getD_cons_zero, hlat, hlng, Bool.or_self, Bool.false_eq_true, if_false] at hr
  constructor
  · refine ⟨_, hr, ?_, rfl, rfl, rfl, rfl, rfl, ?_, ?_, ?_⟩
    · rw [markers_features, List.mapM_cons, hr]
      rfl
    · rintro (h | h | h) <;> simp [h, JSVal.truthy]
    · intro s hs h
      simp [h, JSVal.truthy, hs]
    · exact strictEqNum_iff _ _
  · refine ⟨_, rfl, rfl, ?_, getRadius_magTokyo, rfl, rfl, rfl⟩
    simp only [getColor, colors, magTokyo]
    norm_num

/-- C7 (amended) at the record of the end-to-end scenario. -/
theorem renderQuake_marker_witness :
    ∃ mk : Marker,
      renderQuake (fun _ => true) (JSVal.obj tokyoQuake) = Except.ok (some mk) ∧
      mk.center = (JSVal.num 35.0, JSVal.num 139.0) ∧ mk.color = getColor magTokyo ∧
      mk.radius = getRadius magTokyo := by
  obtain ⟨⟨mk, h1, -, h2, h3, -, h4, -⟩, -⟩ :=
    renderQuake_marker (fun _ => true) tokyoQuake
      [("coordinates", JSVal.arr [JSVal.num 139.0, JSVal.num 35.0])]
      [("mag", JSVal.num magTokyo), ("place", JSVal.str "Tokyo"),
        ("time", JSVal.num 1700000000000), ("tsunami", JSVal.num 0)]
      (JSVal.num 139.0) (JSVal.num 35.0) [] magTokyo rfl rfl rfl rfl rfl rfl rfl
  exact ⟨mk, h1, h2, h3, h4⟩

/-- C6 (amended) at a two-record dataset whose first record has no `mag`. -/
theorem markers_skip_missing_magnitude_witness :
    markers (fun _ => true)
      (JSVal.obj [("features", JSVal.arr ([] ++
        JSVal.obj [("id", JSVal.str "n"),
          ("geometry", JSVal.obj [("coordinates", JSVal.arr [JSVal.num 60, JSVal.num 50])]),
          ("properties", JSVal.obj [("place", JSVal.str "N")])] :: [JSVal.obj tokyoQuake]))]) =
    markers (fun _ => true) (JSVal.obj [("features", JSVal.arr ([] ++ [JSVal.obj tokyoQuake]))]) :=
  (markers_skip_missing_magnitude (fun _ => true) [] [JSVal.obj tokyoQuake] []
    [("id", JSVal.str "n"),
      ("geometry", JSVal.obj [("coordinates", JSVal.arr [JSVal.num 60, JSVal.num 50])]),
      ("properties", JSVal.obj [("place", JSVal.str "N")])]
    [("coordinates", JSVal.arr [JSVal.num 60, JSVal.num 50])]
    [("place", JSVal.str "N")] [JSVal.num 60, JSVal.num 50] rfl rfl rfl rfl rfl).2

/-! ## Theorems: `FitBounds` -/

theorem FitBounds_features {B : Type} (empty : B)
    (extend : B → JSVal × JSVal → Except String B) (quakes : List JSVal)
    (others : List (String × JSVal)) :
    FitBounds empty extend (JSVal.obj (("features", JSVal.arr quakes) :: others)) =
      if quakes.isEmpty then Except.ok (MapCall.setView (0, 0) 2)
      else
        match quakes.foldlM (fun bounds quake => quakePosition quake >>= extend bounds) empty with
        | Except.ok bounds => Except.ok (MapCall.fitBounds bounds 5 (50, 50))
        | Except.error e => Except.error e := by
  cases quakes with
  | nil => rfl
  | cons q qs =>
    simp only [FitBounds, JSVal.truthy, JSVal.getProp, List.lookup, beq_self_eq_true,
      Option.getD_some, getLength, bind, Except.bind, pure, Except.pure, List.length_cons,
      Bool.not_true, Bool.false_eq_true, if_false, reduceCtorEq]
    have hlen : (!decide (((qs.length + 1 : ℕ) : ℚ) ≠ 0)) = false := by
      have h0 : (qs.length : ℚ) + 1 ≠ 0 := by positivity
      simpa using h0
    rw [hlen]
    simp only [Bool.false_eq_true, if_false, List.isEmpty_cons]
    split <;> rename_i h1 <;> split <;> rename_i h2 <;> rw [h1] at h2 <;> cases h2 <;> rfl

theorem foldlM_positions {B : Type} (extend : B → JSVal × JSVal → Except String B) :
    ∀ (quakes : List JSVal) (ps : List (JSVal × JSVal)) (b : B),
      quakes.mapM quakePosition = Except.ok ps →
      quakes.foldlM (fun bounds quake => quakePosition quake >>= extend bounds) b =
        ps.foldlM extend b := by
  intro quakes
  induction quakes with
  | nil =>
    intro ps b h
    simp only [List.mapM_nil, pure, Except.pure, Except.ok.injEq] at h
    subst h
    rfl
  | cons q qs ih =>
    intro ps b h
    rw [List.mapM_cons] at h
    simp only [bind, Except.bind, pure, Except.pure] at h
    cases hq : quakePosition q with
    | error e => rw [hq] at h; cases h
    | ok p =>
      rw [hq] at h
      cases hqs : qs.mapM quakePosition with
      | error e => rw [hqs] at h; cases h
      | ok ps1 =>
        rw [hqs] at h
        simp only [Except.ok.injEq] at h
        subst h
        simp only [List.foldlM_cons, hq, bind, Except.bind]
        cases hx : extend b p with
        | error e => rfl
        | ok b1 => exact ih ps1 b1 hqs

/-- C8 (as stated, refuted). On the two-record dataset of the Tokyo record
and a record without `mag`, `FitBounds` extends the region over both records,
while only the Tokyo record yields a marker; on the dataset of the record
without `mag` alone, `FitBounds` fits the map to that record and does not use
the default world view. -/
theorem FitBounds_counterexample :
    FitBounds none boxExtend
        (JSVal.obj [("features", JSVal.arr [JSVal.obj tokyoQuake, noMagnitudeQuake])]) =
      Except.ok (MapCall.fitBounds (some ⟨35, 60, 50, 139⟩) 5 (50, 50)) ∧
    fitBoundsOverMarkers none boxExtend (fun _ => true)
        (JSVal.obj [("features", JSVal.arr [JSVal.obj tokyoQuake, noMagnitudeQuake])]) =
      Except.ok (MapCall.fitBounds (some ⟨35, 139, 35, 139⟩) 5 (50, 50)) ∧
    FitBounds none boxExtend (JSVal.obj [("features", JSVal.arr [noMagnitudeQuake])]) =
      Except.ok (MapCall.fitBounds (some ⟨50, 60, 50, 60⟩) 5 (50, 50)) ∧
    fitBoundsOverMarkers none boxExtend (fun _ => true)
        (JSVal.obj [("features", JSVal.arr [noMagnitudeQuake])]) =
      Except.ok (MapCall.setView (0, 0) 2) ∧
    FitBounds none boxExtend
        (JSVal.obj [("features", JSVal.arr [JSVal.obj tokyoQuake, noMagnitudeQuake])]) ≠
      fitBoundsOverMarkers none boxExtend (fun _ => true)
        (JSVal.obj [("features", JSVal.arr [JSVal.obj tokyoQuake, noMagnitudeQuake])]) ∧
    FitBounds none boxExtend (JSVal.obj [("features", JSVal.arr [noMagnitudeQuake])]) ≠
      fitBoundsOverMarkers none boxExtend (fun _ => true)
        (JSVal.obj [("features", JSVal.arr [noMagnitudeQuake])]) := by
  have h1 : FitBounds none boxExtend
        (JSVal.obj [("features", JSVal.arr [JSVal.obj tokyoQuake, noMagnitudeQuake])]) =
      Except.ok (MapCall.fitBounds (some ⟨35, 60, 50, 139⟩) 5 (50, 50)) := by
    have p1 : quakePosition (JSVal.obj tokyoQuake) =
        Except.ok (JSVal.num 35.0, JSVal.num 139.0) := rfl
    have p2 : quakePosition noMagnitudeQuake = Except.ok (JSVal.num 50, JSVal.num 60) := rfl
    rw [FitBounds_features]
    simp only [List.isEmpty_cons, Bool.false_eq_true, if_false, List.foldlM_cons,
      List.foldlM_nil, p1, p2, bind, Except.bind, pure, Except.pure, boxExtend]
    norm_num
  have h2 : fitBoundsOverMarkers none boxExtend (fun _ => true)
        (JSVal.obj [("features", JSVal.arr [JSVal.obj tokyoQuake, noMagnitudeQuake])]) =
      Except.ok (MapCall.fitBounds (some ⟨35, 139, 35, 139⟩) 5 (50, 50)) := by
    have hm : markers (fun _ => true)
        (JSVal.obj [("features", JSVal.arr [JSVal.obj tokyoQuake, noMagnitudeQuake])]) =
        Except.ok [
          { key := JSVal.str "x1", center := (JSVal.num 35.0, JSVal.num 139.0),
            radius := getRadius magTokyo, color := getColor magTokyo,
            fillColor := getColor magTokyo, label := JSVal.str "Tokyo", mag := magTokyo,
            time := JSVal.num 1700000000000,
            felt := none, tsunami := false, url := JSVal.undefined }] := rfl
    simp only [fitBoundsOverMarkers, validPositions, hm, List.map, List.foldlM_cons,
      List.foldlM_nil, bind, Except.bind, pure, Except.pure, boxExtend]
    norm_num
  have h3 : FitBounds none boxExtend (JSVal.obj [("features", JSVal.arr [noMagnitudeQuake])]) =
      Except.ok (MapCall.fitBounds (some ⟨50, 60, 50, 60⟩) 5 (50, 50)) := rfl
  have h4 : fitBoundsOverMarkers none boxExtend (fun _ => true)
        (JSVal.obj [("features", JSVal.arr [noMagnitudeQuake])]) =
      Except.ok (MapCall.setView (0, 0) 2) := rfl
  refine ⟨h1, h2, h3, h4, ?_, ?_⟩
  · rw [h1, h2]
    intro h
    simp only [Except.ok.injEq, MapCall.fitBounds.injEq, Option.some.injEq, Box.mk.injEq] at h
    norm_num at h
  · rw [h3, h4]
    intro h
    cases h

/-- C8 (amended). `FitBounds` uses the default world view (centre `(0, 0)`,
zoom 2) when the dataset is absent or has no features; on a dataset with at
least one feature it never uses the default view, and when every record has a
readable position the region is the one extended over the positions
`(coords[1], coords[0])` of all records in feed order, whether or not a
record yields a marker. -/
theorem FitBounds_all_records {B : Type} (empty : B)
    (extend : B → JSVal × JSVal → Except String B) :
    (∀ data : JSVal, data.truthy = false →
      FitBounds empty extend data = Except.ok (MapCall.setView (0, 0) 2) ∧
      FitBounds empty extend (fitBoundsInput data) = Except.ok (MapCall.setView (0, 0) 2)) ∧
    (∀ others : List (String × JSVal),
      FitBounds empty extend (JSVal.obj (("features", JSVal.arr []) :: others)) =
        Except.ok (MapCall.setView (0, 0) 2)) ∧
    (∀ (others : List (String × JSVal)) (quakes : List JSVal) (ps : List (JSVal × JSVal)),
      quakes ≠ [] → quakes.mapM quakePosition = Except.ok ps →
      ps.length = quakes.length ∧
      FitBounds empty extend (JSVal.obj (("features", JSVal.arr quakes) :: others)) =
        match ps.foldlM extend empty with
        | Except.ok bounds => Except.ok (MapCall.fitBounds bounds 5 (50, 50))
        | Except.error e => Except.error e) ∧
    (∀ (others : List (String × JSVal)) (quakes : List JSVal) (center : ℚ × ℚ) (zoom : ℕ),
      quakes ≠ [] →
      FitBounds empty extend (JSVal.obj (("features", JSVal.arr quakes) :: others)) ≠
        Except.ok (MapCall.setView center zoom)) := by
  refine ⟨?_, ?_, ?_, ?_⟩
  · intro data h
    constructor
    · simp [FitBounds, h, pure, Except.pure]
    · simp only [fitBoundsInput, h, Bool.false_eq_true, if_false]
      rfl
  · intro others
    rfl
  · intro others quakes ps hne hps
    have hlen : ∀ (qs : List JSVal) (rs : List (JSVal × JSVal)),
        qs.mapM quakePosition = Except.ok rs → rs.length = qs.length := by
      intro qs
      induction qs with
      | nil =>
        intro rs h
        simp only [List.mapM_nil, pure, Except.pure, Except.ok.injEq] at h
        subst h
        rfl
      | cons q qs ih =>
        intro rs h
        rw [List.mapM_cons] at h
        simp only [bind, Except.bind, pure, Except.pure] at h
        cases hq : quakePosition q with
        | error e => rw [hq] at h; cases h
        | ok p =>
          rw [hq] at h
          cases hqs : qs.mapM quakePosition with
          | error e => rw [hqs] at h; cases h
          | ok ps1 =>
            rw [hqs] at h
            simp only [Except.ok.injEq] at h
            subst h
            simp [ih ps1 hqs]
    refine ⟨hlen quakes ps hps, ?_⟩
    rw [FitBounds_features, foldlM_positions extend quakes ps empty hps]
    cases quakes with
    | nil => exact absurd rfl hne
    | cons q qs => rfl
  · intro others quakes center zoom hne
    rw [FitBounds_features]
    cases quakes with
    | nil => exact absurd rfl hne
    | cons q qs =>
      simp only [List.isEmpty_cons, Bool.false_eq_true, if_false]
      split
      · intro h
        cases h
      · intro h
        cases h

/-- C8 (amended) at the two-record dataset of the Tokyo record and a record
without `mag`: the region covers both positions. -/
theorem FitBounds_all_records_witness :
    FitBounds none boxExtend
        (JSVal.obj [("features", JSVal.arr [JSVal.obj tokyoQuake, noMagnitudeQuake])]) =
      match [(JSVal.num 35.0, JSVal.num 139.0), (JSVal.num 50, JSVal.num 60)].foldlM
          boxExtend none with
      | Except.ok bounds => Except.ok (MapCall.fitBounds bounds 5 (50, 50))
      | Except.error e => Except.error e :=
  ((FitBounds_all_records none boxExtend).2.2.1 [] [JSVal.obj tokyoQuake, noMagnitudeQuake]
    [(JSVal.num 35.0, JSVal.num 139.0), (JSVal.num 50, JSVal.num 60)]
    (by simp) rfl).2

/-! ## Theorems: the fetch state machine -/

theorem wellFormed_initialState : wellFormed initialState := by
  refine ⟨?_, ?_, ?_, ?_⟩
  · intro e he
    simp [initialState] at he
  · intro e he
    simp [initialState] at he
  · intro e _
    simp [initialState, Episode.unused]
  · simp [consistent, initialState, JSVal.isNull]

theorem wellFormed_runEffect (s : AppState)
    (h1 : ∀ e, e + 1 < s.count →
      (s.episodes e).didCancel = true ∧ (s.episodes e).timerPending = false)
    (h3 : ∀ e, s.count ≤ e →
      (s.episodes e).timerPending = false ∧ (s.episodes e).fetchPending = false) :
    wellFormed (runEffect s) := by
  unfold runEffect cleanup
  by_cases h0 : s.count = 0
  · rw [if_pos h0]
    simp only [fetchData]
    refine ⟨?_, ?_, ?_, ?_⟩
    · intro e he
      simp only at he
      omega
    · intro e he
      simp only at he
      have : e = s.count := by omega
      rw [this]
      simp [Function.update_apply, JSVal.isNull]
    · intro e he
      simp only at he
      have hne : e ≠ s.count := by omega
      simp only [Function.update_apply, hne, if_false]
      exact h3 e (by omega)
    · simp [consistent, JSVal.isNull]
  · rw [if_neg h0]
    simp only [fetchData]
    refine ⟨?_, ?_, ?_, ?_⟩
    · intro e he
      simp only at he
      have hne : e ≠ s.count := by omega
      simp only [Function.update_apply, hne, if_false]
      by_cases hc : e = s.count - 1
      · simp [hc]
      · simp only [hc, if_false]
        exact h1 e (by omega)
    · intro e he
      simp only at he
      have : e = s.count := by omega
      rw [this]
      simp [Function.update_apply, JSVal.isNull]
    · intro e he
      simp only at he
      have hne : e ≠ s.count := by omega
      have hne2 : e ≠ s.count - 1 := by omega
      simp only [Function.update_apply, hne, hne2, if_false]
      exact h3 e (by omega)
    · simp [consistent, JSVal.isNull]

theorem wellFormed_flushEffect (s : AppState) (h : wellFormed s) :
    wellFormed (flushEffect s) := by
  unfold flushEffect
  split
  · exact wellFormed_runEffect _ h.1 h.2.2.1
  · exact h

theorem wellFormed_commitTimeframe (s : AppState) (tf : String) (h : wellFormed s) :
    wellFormed (commitTimeframe s tf) := by
  unfold commitTimeframe
  split
  · exact h
  · exact wellFormed_flushEffect s h

theorem wellFormed_step (s : AppState) (ev : Event) (h : wellFormed s) :
    wellFormed (step s ev) := by
  obtain ⟨h1, h2, h3, h4⟩ := h
  cases ev with
  | mount => exact wellFormed_runEffect s h1 h3
  | setTimeframe tf => exact wellFormed_commitTimeframe s tf ⟨h1, h2, h3, h4⟩
  | effectRun => exact wellFormed_flushEffect s ⟨h1, h2, h3, h4⟩
  | fetchResolved e json =>
    simp only [step]
    split
    next hp =>
      rcases Nat.lt_trichotomy (e + 1) s.count with hlt | heq | hgt
      · have hd := (h1 e hlt).1
        have ht := (h1 e hlt).2
        simp only [fetchSucceeded, Function.update_same, hd, Bool.not_true, Bool.false_eq_true,
          if_false]
        refine ⟨?_, ?_, ?_, h4⟩
        · intro e1 he1
          by_cases hx : e1 = e
          · subst hx
            simp [hd, ht]
          · simp only [Function.update_apply, hx, if_false]
            exact h1 e1 he1
        · intro e1 he1
          have hx : e1 ≠ e := by
            simp only at he1
            omega
          simp only [Function.update_apply, hx, if_false]
          exact h2 e1 he1
        · intro e1 he1
          have hx : e1 ≠ e := by
            simp only at he1
            omega
          simp only [Function.update_apply, hx, if_false]
          exact h3 e1 he1
      · have hd := (h2 e heq).1
        simp only [fetchSucceeded, Function.update_same, hd, Bool.not_false, if_true,
          Function.update_idem]
        refine ⟨?_, ?_, ?_, ?_⟩
        · intro e1 he1
          have hx : e1 ≠ e := by
            simp only at he1
            omega
          simp only [Function.update_apply, hx, if_false]
          exact h1 e1 he1
        · intro e1 he1
          have hx : e1 = e := by
            simp only at he1
            omega
          subst hx
          simp [hd]
        · intro e1 he1
          have hx : e1 ≠ e := by
            simp only at he1
            omega
          simp only [Function.update_apply, hx, if_false]
          exact h3 e1 he1
        · simp [consistent]
      · have := (h3 e (by omega)).2
        rw [this] at hp
        cases hp
    next => exact ⟨h1, h2, h3, h4⟩
  | fetchRejected e =>
    simp only [step]
    split
    next hp =>
      rcases Nat.lt_trichotomy (e + 1) s.count with hlt | heq | hgt
      · have hd := (h1 e hlt).1
        have ht := (h1 e hlt).2
        simp only [fetchFailed, Function.update_same, hd, Bool.not_true, Bool.false_eq_true,
          if_false]
        refine ⟨?_, ?_, ?_, h4⟩
        · intro e1 he1
          by_cases hx : e1 = e
          · subst hx
            simp [hd, ht]
          · simp only [Function.update_apply, hx, if_false]
            exact h1 e1 he1
        · intro e1 he1
          have hx : e1 ≠ e := by
            simp only at he1
            omega
          simp only [Function.update_apply, hx, if_false]
          exact h2 e1 he1
        · intro e1 he1
          have hx : e1 ≠ e := by
            simp only at he1
            omega
          simp only [Function.update_apply, hx, if_false]
          exact h3 e1 he1
      · have hd := (h2 e heq).1
        have hnull := (h2 e heq).2.2 hp
        simp only [fetchFailed, Function.update_same, hd, Bool.not_false, if_true,
          Function.update_idem]
        refine ⟨?_, ?_, ?_, ?_⟩
        · intro e1 he1
          have hx : e1 ≠ e := by
            simp only at he1
            omega
          simp only [Function.update_apply, hx, if_false]
          exact h1 e1 he1
        · intro e1 he1
          have hx : e1 = e := by
            simp only at he1
            omega
          subst hx
          simp [hd]
        · intro e1 he1
          have hx : e1 ≠ e := by
            simp only at he1
            omega
          simp only [Function.update_apply, hx, if_false]
          exact h3 e1 he1
        · simp [consistent, hnull]
      · have := (h3 e (by omega)).2
        rw [this] at hp
        cases hp
    next => exact ⟨h1, h2, h3, h4⟩
  | timerFired e =>
    simp only [step]
    split
    next hp =>
      rcases Nat.lt_trichotomy (e + 1) s.count with hlt | heq | hgt
      · have ht := (h1 e hlt).2
        rw [ht] at hp
        cases hp
      · have hd := (h2 e heq).1
        have hnull := (h2 e heq).2.2 ((h2 e heq).2.1 hp)
        simp only [timeoutCallback, Function.update_same, hd, Bool.not_false, if_true]
        refine ⟨?_, ?_, ?_, ?_⟩
        · intro e1 he1
          have hx : e1 ≠ e := by
            simp only at he1
            omega
          simp only [Function.update_apply, hx, if_false]
          exact h1 e1 he1
        · intro e1 he1
          have hx : e1 = e := by
            simp only at he1
            omega
          subst hx
          simp [hd, hnull]
        · intro e1 he1
          have hx : e1 ≠ e := by
            simp only at he1
            omega
          simp only [Function.update_apply, hx, if_false]
          exact h3 e1 he1
        · simp [consistent, hnull]
      · have := (h3 e (by omega)).1
        rw [this] at hp
        cases hp
    next => exact ⟨h1, h2, h3, h4⟩

theorem wellFormed_run (evs : List Event) :
    ∀ s : AppState, wellFormed s → wellFormed (run s evs) := by
  induction evs with
  | nil => intro s h; exact h
  | cons ev evs ih =>
    intro s h
    exact ih (step s ev) (wellFormed_step s ev h)

theorem runEffect_fields (s : AppState) :
    (runEffect s).timeframe = s.timeframe ∧ (runEffect s).data = JSVal.null ∧
    (runEffect s).loading = true ∧ (runEffect s).error = "" ∧
    (runEffect s).count = s.count + 1 ∧
    (runEffect s).effectPending = s.effectPending ∧
    ∀ e, s.count ≤ e → (runEffect s).episodes e =
      if e = s.count then
        { url := TIMEFRAMES.lookup s.timeframe, didCancel := false, timerPending := true,
          fetchPending := true }
      else s.episodes e := by
  unfold runEffect cleanup
  by_cases h0 : s.count = 0
  · rw [if_pos h0]
    refine ⟨rfl, rfl, rfl, rfl, rfl, rfl, ?_⟩
    intro e _
    simp only [fetchData, Function.update_apply]
  · rw [if_neg h0]
    refine ⟨rfl, rfl, rfl, rfl, rfl, rfl, ?_⟩
    intro e he
    have hx : e ≠ s.count - 1 := by omega
    simp only [fetchData, Function.update_apply, hx, if_false]

/-- C9 (as stated, refuted). In the Ready state of the first episode the
timeframe is changed: the render committed right after the change has the new
timeframe and still the dataset of the earlier episode, with `loading` false.
In the Failed state of the first episode, it still has the earlier error. -/
theorem stale_data_after_change :
    (run initialState [Event.mount, Event.fetchResolved 0 tokyoData]).data = tokyoData ∧
    (step (run initialState [Event.mount, Event.fetchResolved 0 tokyoData])
      (Event.setTimeframe "hour")).timeframe = "hour" ∧
    (step (run initialState [Event.mount, Event.fetchResolved 0 tokyoData])
      (Event.setTimeframe "hour")).data = tokyoData ∧
    (step (run initialState [Event.mount, Event.fetchResolved 0 tokyoData])
      (Event.setTimeframe "hour")).data.isNull = false ∧
    (step (run initialState [Event.mount, Event.fetchResolved 0 tokyoData])
      (Event.setTimeframe "hour")).loading = false ∧
    (step (run initialState [Event.mount, Event.fetchRejected 0])
      (Event.setTimeframe "hour")).error = "Error fetching data" := by
  refine ⟨rfl, rfl, rfl, rfl, rfl, rfl⟩

/-- C9 (amended). The resets are made by the effect: right after the effect
of the mount has run, and right after the effect that follows a change of the
timeframe has run, whatever the prior state, `loading` is true, the dataset is
absent and the error is empty.  The render committed between the change and
the run of the effect has the new timeframe and, no other effect being
pending, the dataset, `loading` and error of the state before the change. -/
theorem entering_loading_clears (s : AppState) (tf : String) :
    ((step s Event.mount).loading = true ∧ (step s Event.mount).data = JSVal.null ∧
      (step s Event.mount).error = "" ∧ (step s Event.mount).timeframe = s.timeframe) ∧
    (tf ≠ s.timeframe →
      (step s (Event.setTimeframe tf)).timeframe = tf ∧
      (step s (Event.setTimeframe tf)).effectPending = true ∧
      (s.effectPending = false →
        (step s (Event.setTimeframe tf)).data = s.data ∧
        (step s (Event.setTimeframe tf)).loading = s.loading ∧
        (step s (Event.setTimeframe tf)).error = s.error) ∧
      (step (step s (Event.setTimeframe tf)) Event.effectRun).loading = true ∧
      (step (step s (Event.setTimeframe tf)) Event.effectRun).data = JSVal.null ∧
      (step (step s (Event.setTimeframe tf)) Event.effectRun).error = "" ∧
      (step (step s (Event.setTimeframe tf)) Event.effectRun).timeframe = tf ∧
      (step (step s (Event.setTimeframe tf)) Event.effectRun).effectPending = false) := by
  constructor
  · obtain ⟨h1, h2, h3, h4, -, -, -⟩ := runEffect_fields s
    exact ⟨h3, h2, h4, h1⟩
  · intro h
    have hs : step s (Event.setTimeframe tf) =
        { flushEffect s with timeframe := tf, effectPending := true } := by
      simp only [step, commitTimeframe, if_neg h]
    rw [hs]
    refine ⟨rfl, rfl, ?_, ?_⟩
    · intro hp
      simp only [flushEffect, hp, Bool.false_eq_true, if_false, and_self]
    · simp only [step, flushEffect, if_true]
      obtain ⟨h1, h2, h3, h4, -, h6, -⟩ := runEffect_fields
        { flushEffect s with timeframe := tf, effectPending := false }
      exact ⟨h3, h2, h4, h1, h6⟩

/-- C10. In every state reachable from the initial state by timeframe
changes, fetch successes, fetch failures and timeout firings (and the mount),
a dataset is present only when `loading` is false and the error is empty, the
error is non-empty only when `loading` is false and the dataset is absent,
and `loading` is true only when the dataset is absent and the error empty. -/
theorem reachable_consistent (evs : List Event) :
    ((run initialState evs).data.isNull = false →
      (run initialState evs).loading = false ∧ (run initialState evs).error = "") ∧
    ((run initialState evs).error ≠ "" →
      (run initialState evs).loading = false ∧ (run initialState evs).data.isNull = true) ∧
    ((run initialState evs).loading = true →
      (run initialState evs).data.isNull = true ∧ (run initialState evs).error = "") :=
  (wellFormed_run evs initialState wellFormed_initialState).2.2.2

/-- C4 (as stated, refuted). After the mount the timer of episode 0 fires
while its request is outstanding: the state is Failed.  The same request then
succeeds: the dataset is set and the error cleared, so the late success is
not discarded. -/
theorem late_success_not_discarded :
    ((run initialState [Event.mount, Event.timerFired 0]).episodes 0).fetchPending = true ∧
    (run initialState [Event.mount, Event.timerFired 0]).error =
      "Error fetching data: Request timed out." ∧
    (run initialState [Event.mount, Event.timerFired 0]).loading = false ∧
    (run initialState [Event.mount, Event.timerFired 0]).data = JSVal.null ∧
    (run initialState [Event.mount, Event.timerFired 0, Event.fetchResolved 0 tokyoData]).data =
      tokyoData ∧
    (run initialState [Event.mount, Event.timerFired 0, Event.fetchResolved 0 tokyoData]).error =
      "" ∧
    (run initialState
      [Event.mount, Event.timerFired 0, Event.fetchResolved 0 tokyoData]).data.isNull = false := by
  refine ⟨rfl, rfl, rfl, rfl, rfl, rfl, rfl⟩

/-- C4 (amended). When the timer of the current episode fires while its
request is outstanding, the state becomes Failed (timeout message, `loading`
false, dataset absent).  A later failure of that request keeps it Failed; a
later success of that request, the episode still being current, sets the
dataset, clears the error and leaves `loading` false. -/
theorem timeout_then_late_result (evs : List Event) (e : ℕ) (json : JSVal)
    (hcur : e + 1 = (run initialState evs).count)
    (ht : ((run initialState evs).episodes e).timerPending = true) :
    ((run initialState evs).episodes e).fetchPending = true ∧
    (step (run initialState evs) (Event.timerFired e)).error =
      "Error fetching data: Request timed out." ∧
    (step (run initialState evs) (Event.timerFired e)).loading = false ∧
    (step (run initialState evs) (Event.timerFired e)).data = JSVal.null ∧
    (step (step (run initialState evs) (Event.timerFired e)) (Event.fetchResolved e json)).data =
      json ∧
    (step (step (run initialState evs) (Event.timerFired e)) (Event.fetchResolved e json)).error =
      "" ∧
    (step (step (run initialState evs) (Event.timerFired e))
      (Event.fetchResolved e json)).loading = false ∧
    (step (step (run initialState evs) (Event.timerFired e)) (Event.fetchRejected e)).error =
      "Error fetching data" ∧
    (step (step (run initialState evs) (Event.timerFired e)) (Event.fetchRejected e)).loading =
      false ∧
    (step (step (run initialState evs) (Event.timerFired e)) (Event.fetchRejected e)).data =
      JSVal.null := by
  obtain ⟨-, h2, -, -⟩ := wellFormed_run evs initialState wellFormed_initialState
  obtain ⟨hd, htf, hfn⟩ := h2 e hcur
  have hf := htf ht
  have hnull : (run initialState evs).data = JSVal.null := by
    have := hfn hf
    cases hdat : (run initialState evs).data <;> simp_all [JSVal.isNull]
  generalize run initialState evs = s at *
  simp [step, timeoutCallback, fetchSucceeded, fetchFailed, ht, hf, hd, hnull]

/-- C4 (amended) at the first episode, right after the mount. -/
theorem timeout_then_late_result_witness :
    (step (step (run initialState [Event.mount]) (Event.timerFired 0))
      (Event.fetchResolved 0 tokyoData)).data = tokyoData :=
  (timeout_then_late_result [Event.mount] 0 tokyoData rfl rfl).2.2.2.2.1

theorem sameCurrent_symm {a b : AppState} (h : sameCurrent a b) : sameCurrent b a :=
  ⟨h.1.symm, h.2.1.symm, h.2.2.1.symm,
    fun e he => (h.2.2.2 e (by rw [h.2.1]; exact he)).symm⟩

theorem sameCurrent_trans {a b c : AppState} (h1 : sameCurrent a b) (h2 : sameCurrent b c) :
    sameCurrent a c :=
  ⟨h1.1.trans h2.1, h1.2.1.trans h2.2.1, h1.2.2.1.trans h2.2.2.1,
    fun e he => (h1.2.2.2 e he).trans (h2.2.2.2 e (by rw [← h1.2.1]; exact he))⟩

theorem step_stale (s : AppState) (ev : Event) (h : wellFormed s)
    (hs : staleCallback s ev = true) : sameCurrent (step s ev) s := by
  obtain ⟨h1, -, -, -⟩ := h
  cases ev with
  | mount => simp [staleCallback] at hs
  | setTimeframe tf => simp [staleCallback] at hs
  | effectRun => simp [staleCallback] at hs
  | fetchResolved e json =>
    simp only [staleCallback, decide_eq_true_eq, superseded] at hs
    have hd := (h1 e hs).1
    simp only [step, fetchSucceeded, Function.update_same, hd, Bool.not_true, Bool.false_eq_true,
      if_false]
    split
    · refine ⟨rfl, rfl, rfl, ?_⟩
      intro e1 he1
      have hx : e1 ≠ e := by
        simp only at he1
        omega
      simp only [Function.update_apply, hx, if_false]
    · exact ⟨rfl, rfl, rfl, fun _ _ => rfl⟩
  | fetchRejected e =>
    simp only [staleCallback, decide_eq_true_eq, superseded] at hs
    have hd := (h1 e hs).1
    simp only [step, fetchFailed, Function.update_same, hd, Bool.not_true, Bool.false_eq_true,
      if_false]
    split
    · refine ⟨rfl, rfl, rfl, ?_⟩
      intro e1 he1
      have hx : e1 ≠ e := by
        simp only at he1
        omega
      simp only [Function.update_apply, hx, if_false]
    · exact ⟨rfl, rfl, rfl, fun _ _ => rfl⟩
  | timerFired e =>
    simp only [staleCallback, decide_eq_true_eq, superseded] at hs
    have hd := (h1 e hs).1
    simp only [step, timeoutCallback, Function.update_same, hd, Bool.not_true,
      Bool.false_eq_true, if_false]
    split
    · refine ⟨rfl, rfl, rfl, ?_⟩
      intro e1 he1
      have hx : e1 ≠ e := by
        simp only at he1
        omega
      simp only [Function.update_apply, hx, if_false]
    · exact ⟨rfl, rfl, rfl, fun _ _ => rfl⟩

theorem runEffect_sameCurrent (a b : AppState) (h : sameCurrent a b) :
    sameCurrent (runEffect a) (runEffect b) := by
  obtain ⟨hp, hc, hf, he⟩ := h
  simp only [AppState.pub, Prod.mk.injEq] at hp
  obtain ⟨htf, -, -, -⟩ := hp
  obtain ⟨a1, a2, a3, a4, a5, a7, a6⟩ := runEffect_fields a
  obtain ⟨b1, b2, b3, b4, b5, b7, b6⟩ := runEffect_fields b
  refine ⟨?_, ?_, ?_, ?_⟩
  · simp only [AppState.pub, a1, a2, a3, a4, b1, b2, b3, b4, htf]
  · rw [a5, b5, hc]
  · rw [a7, b7, hf]
  · intro e hge
    rw [a5] at hge
    rw [a6 e (by omega), b6 e (by omega), ← hc, ← htf, he e (by omega)]

theorem flushEffect_sameCurrent (a b : AppState) (h : sameCurrent a b) :
    sameCurrent (flushEffect a) (flushEffect b) := by
  have hf := h.2.2.1
  unfold flushEffect
  rw [← hf]
  split
  · exact runEffect_sameCurrent _ _ ⟨h.1, h.2.1, rfl, h.2.2.2⟩
  · exact h

theorem commitTimeframe_sameCurrent (a b : AppState) (tf : String) (h : sameCurrent a b) :
    sameCurrent (commitTimeframe a tf) (commitTimeframe b tf) := by
  have hp := h.1
  simp only [AppState.pub, Prod.mk.injEq] at hp
  unfold commitTimeframe
  rw [← hp.1]
  split
  · exact h
  · obtain ⟨fp, fc, -, fe⟩ := flushEffect_sameCurrent a b h
    simp only [AppState.pub, Prod.mk.injEq] at fp
    exact ⟨by simp [AppState.pub, fp.2.1, fp.2.2.1, fp.2.2.2], fc, rfl, fe⟩

theorem step_sameCurrent (a b : AppState) (ev : Event) (ha : wellFormed a) (hb : wellFormed b)
    (h : sameCurrent a b) : sameCurrent (step a ev) (step b ev) := by
  by_cases hs : staleCallback a ev = true
  · have hsb : staleCallback b ev = true := by
      cases ev <;> simp_all [staleCallback, superseded, sameCurrent]
    exact sameCurrent_trans (step_stale a ev ha hs)
      (sameCurrent_trans h (sameCurrent_symm (step_stale b ev hb hsb)))
  · obtain ⟨hp, hc, hf, he⟩ := h
    have hp2 := hp
    simp only [AppState.pub, Prod.mk.injEq] at hp2
    obtain ⟨htf, hdat, hld, her⟩ := hp2
    cases ev with
    | mount => exact runEffect_sameCurrent a b ⟨hp, hc, hf, he⟩
    | setTimeframe tf => exact commitTimeframe_sameCurrent a b tf ⟨hp, hc, hf, he⟩
    | effectRun => exact flushEffect_sameCurrent a b ⟨hp, hc, hf, he⟩
    | fetchResolved e json =>
      simp only [staleCallback, decide_eq_true_eq, superseded] at hs
      have hee := he e (by omega)
      simp only [step, fetchSucceeded, Function.update_same, ← hee]
      split
      · split
        · refine ⟨by simp [AppState.pub, htf], hc, hf, ?_⟩
          intro e1 _
          by_cases hx : e1 = e
          · rw [hx]
            simp only [Function.update_same]
          · simp only [Function.update_apply, hx, if_false]
            exact he e1 (by assumption)
        · refine ⟨hp, hc, hf, ?_⟩
          intro e1 _
          by_cases hx : e1 = e
          · rw [hx]
            simp only [Function.update_same]
          · simp only [Function.update_apply, hx, if_false]
            exact he e1 (by assumption)
      · exact ⟨hp, hc, hf, he⟩
    | fetchRejected e =>
      simp only [staleCallback, decide_eq_true_eq, superseded] at hs
      have hee := he e (by omega)
      simp only [step, fetchFailed, Function.update_same, ← hee]
      split
      · split
        · refine ⟨by simp [AppState.pub, htf, hdat], hc, hf, ?_⟩
          intro e1 _
          by_cases hx : e1 = e
          · rw [hx]
            simp only [Function.update_same]
          · simp only [Function.update_apply, hx, if_false]
            exact he e1 (by assumption)
        · refine ⟨hp, hc, hf, ?_⟩
          intro e1 _
          by_cases hx : e1 = e
          · rw [hx]
            simp only [Function.update_same]
          · simp only [Function.update_apply, hx, if_false]
            exact he e1 (by assumption)
      · exact ⟨hp, hc, hf, he⟩
    | timerFired e =>
      simp only [staleCallback, decide_eq_true_eq, superseded] at hs
      have hee := he e (by omega)
      simp only [step, timeoutCallback, Function.update_same, ← hee]
      split
      · split
        · refine ⟨by simp [AppState.pub, htf, hdat], hc, hf, ?_⟩
          intro e1 _
          by_cases hx : e1 = e
          · rw [hx]
            simp only [Function.update_same]
          · simp only [Function.update_apply, hx, if_false]
            exact he e1 (by assumption)
        · refine ⟨hp, hc, hf, ?_⟩
          intro e1 _
          by_cases hx : e1 = e
          · rw [hx]
            simp only [Function.update_same]
          · simp only [Function.update_apply, hx, if_false]
            exact he e1 (by assumption)
      · exact ⟨hp, hc, hf, he⟩

theorem run_dropStale (evs : List Event) :
    ∀ a b : AppState, wellFormed a → wellFormed b → sameCurrent a b →
      sameCurrent (run a evs) (run b (dropStale a evs)) := by
  induction evs with
  | nil => intro a b _ _ h; exact h
  | cons ev evs ih =>
    intro a b ha hb h
    by_cases hs : staleCallback a ev = true
    · simp only [dropStale, hs, if_true]
      exact ih (step a ev) b (wellFormed_step a ev ha) hb
        (sameCurrent_trans (step_stale a ev ha hs) h)
    · simp only [dropStale, hs, if_false]
      exact ih (step a ev) (step b ev) (wellFormed_step a ev ha) (wellFormed_step b ev hb)
        (step_sameCurrent a b ev ha hb h)

/-- C3. In a state reached by any sequence of events, every callback of a
superseded episode (fetch success, fetch failure, timer) leaves the timeframe,
the dataset, `loading` and the error unchanged, and its guarded body is a
no-op; and the public fields after any sequence of events are those after
the same sequence without the callbacks of episodes superseded when they
arrive: they reflect the outcome of the most recent episode only. -/
theorem superseded_callbacks_ignored (evs : List Event) (e : ℕ) (json : JSVal)
    (h : superseded (run initialState evs) e) :
    (step (run initialState evs) (Event.fetchResolved e json)).pub =
      (run initialState evs).pub ∧
    (step (run initialState evs) (Event.fetchRejected e)).pub = (run initialState evs).pub ∧
    (step (run initialState evs) (Event.timerFired e)).pub = (run initialState evs).pub ∧
    fetchSucceeded e json (run initialState evs) = run initialState evs ∧
    fetchFailed e (run initialState evs) = run initialState evs ∧
    timeoutCallback e (run initialState evs) = run initialState evs ∧
    ∀ more : List Event,
      (run (run initialState evs) more).pub =
        (run (run initialState evs) (dropStale (run initialState evs) more)).pub := by
  have hw := wellFormed_run evs initialState wellFormed_initialState
  have hd := (hw.1 e h).1
  refine ⟨?_, ?_, ?_, ?_, ?_, ?_, ?_⟩
  · exact (step_stale _ (Event.fetchResolved e json) hw (by simpa [staleCallback] using h)).1
  · exact (step_stale _ (Event.fetchRejected e) hw (by simpa [staleCallback] using h)).1
  · exact (step_stale _ (Event.timerFired e) hw (by simpa [staleCallback] using h)).1
  · simp [fetchSucceeded, hd]
  · simp [fetchFailed, hd]
  · simp [timeoutCallback, hd]
  · intro more
    exact (run_dropStale more _ _ hw hw ⟨rfl, rfl, rfl, fun _ _ => rfl⟩).1

/-- C3 at the scenario of the specification: the timeframe changes from `day`
to `week` while the `day` request is outstanding, and the effect of the
render with `week` runs; the `day` request then succeeds, and the public
fields stay those of the `week` episode. -/
theorem superseded_callbacks_ignored_witness :
    ((run initialState
      [Event.mount, Event.setTimeframe "week", Event.effectRun]).episodes 0).fetchPending = true ∧
    (step (run initialState [Event.mount, Event.setTimeframe "week", Event.effectRun])
      (Event.fetchResolved 0 tokyoData)).pub =
      (run initialState [Event.mount, Event.setTimeframe "week", Event.effectRun]).pub :=
  ⟨rfl, (superseded_callbacks_ignored [Event.mount, Event.setTimeframe "week", Event.effectRun] 0
    tokyoData (by decide)).1⟩

/-- C9 (amended) at a Ready state: the render after the change of the
timeframe still has the dataset, the effect run clears it. -/
theorem entering_loading_clears_witness :
    (step (run initialState [Event.mount, Event.fetchResolved 0 tokyoData])
      (Event.setTimeframe "hour")).timeframe = "hour" ∧
    (step (step (run initialState [Event.mount, Event.fetchResolved 0 tokyoData])
      (Event.setTimeframe "hour")) Event.effectRun).data = JSVal.null :=
  ⟨((entering_loading_clears (run initialState [Event.mount, Event.fetchResolved 0 tokyoData])
      "hour").2 (by decide)).1,
    ((entering_loading_clears (run initialState [Event.mount, Event.fetchResolved 0 tokyoData])
      "hour").2 (by decide)).2.2.2.2.1⟩

end EarthquakeVisualizer
